import Mathlib

/-!
# Verification of the Mattermost 5.16.2 post pipeline (`app/post.go`)

A shallow embedding of the post write pipeline (create/update with
deduplication and plugin hooks) and of the search aggregators from
`src/app/post.go`, together with theorems settling the frozen claims.

Conventions:
* Go `*model.Post` nil-ability is rendered with `Option Post`.
* Go millisecond timestamps (`model.GetMillis()`) are passed in explicitly
  as `Int` parameters/environment fields; within one call every
  `GetMillis()` occurrence is modelled by the same instant `now`.
* External collaborators (stores, plugin runtime, Elasticsearch, config)
  are environment records of function fields, one field per call site.
* Functions from the `model`/`plugin` packages that are not part of
  `src/` are modelled from the spec and carry a doc comment saying so.
* Fire-and-forget side effects (websocket broadcast, metrics, async
  indexing, cache invalidation) have no bearing on any claim and are not
  modelled; comments mark the elisions.
-/

/-- Mirror of `model.AppError` restricted to the fields the claims are
about: the function name (`Where`), the i18n error identifier (`Id`) and
the HTTP status code.  Message params and detailed-error strings are
dropped: no claim mentions them. -/
structure AppError where
  Where : String
  Id : String
  StatusCode : Nat
deriving Repr, DecidableEq

/-- `http.StatusBadRequest`. -/
def statusBadRequest : Nat := 400
/-- `http.StatusForbidden`. -/
def statusForbidden : Nat := 403
/-- `http.StatusNotFound`. -/
def statusNotFound : Nat := 404
/-- `http.StatusConflict`, the HTTP class for retryable conflicts. -/
def statusConflict : Nat := 409
/-- `http.StatusInternalServerError`. -/
def statusInternalServerError : Nat := 500

/-- Values stored in a post's property map (`model.StringInterface`).
`slackAttachments` stands for the typed legacy `[]*model.SlackAttachment`
shape and `jsonArr` for the generic `[]interface\x7b\x7d` shape produced by the
JSON round trip of the migration shim (post.go lines 227-238); `strMap`
carries the `channel_mentions` display-name map. -/
inductive PropVal where
  | str (s : String)
  | strMap (m : List (String × String))
  | slackAttachments (a : List String)
  | jsonArr (a : List String)
deriving Repr, DecidableEq

/-- A property map, keyed by property name. -/
abbrev Props : Type := List (String × PropVal)

instance : DecidableEq Props := inferInstanceAs (DecidableEq (List (String × PropVal)))

instance : Repr Props := inferInstanceAs (Repr (List (String × PropVal)))

/-- Lookup in a property map (Go map indexing). -/
def Props.get? (p : Props) (k : String) : Option PropVal :=
  (List.lookup k p : Option PropVal)

/-- Set a key in a property map (Go map assignment / `Post.AddProp`). -/
def Props.set (p : Props) (k : String) (v : PropVal) : Props :=
  (k, v) :: (List.filter (fun kv => kv.1 ≠ k) p)

/-- Delete a key from a property map (Go `delete`). -/
def Props.del (p : Props) (k : String) : Props :=
  (List.filter (fun kv => kv.1 ≠ k) p : List (String × PropVal))

/-- Mirror of `model.Post`, restricted to the fields `app/post.go` reads
or writes.  The Go field `Type` is rendered `PostType` (`Type` is a Lean
keyword). -/
structure Post where
  Id : String
  ChannelId : String
  UserId : String
  RootId : String
  ParentId : String
  Message : String
  PostType : String
  PendingPostId : String
  IsPinned : Bool
  HasReactions : Bool
  FileIds : List String
  Props : Props
  CreateAt : Int
  EditAt : Int
  DeleteAt : Int
  Hashtags : String
deriving Repr, DecidableEq

/-- Mirror of `model.Channel` restricted to the fields used here.
`ChanType` renders Go `Type` ("O" = open). -/
structure Channel where
  Id : String
  Name : String
  DisplayName : String
  TeamId : String
  ChanType : String
  DeleteAt : Int
deriving Repr, DecidableEq

/-- Mirror of `model.User` restricted to the fields used here.
`canManageSystem` folds `RolesGrantPermission(user.GetRoles(),
PERMISSION_MANAGE_SYSTEM)` (an external lookup) into the user record. -/
structure User where
  Id : String
  IsBot : Bool
  canManageSystem : Bool
deriving Repr, DecidableEq

/-- `model.POST_SYSTEM_MESSAGE_PREFIX`: the namespace of system message
types. -/
def systemMessageTypePre : String := "system_"

/-- `model.DEFAULT_CHANNEL` ("town-square"), the broadcast channel name. -/
def defaultChannelName : String := "town-square"

/-- `plugin.DismissPostError`: the reason value that means "silently
dismiss, do not surface detail". -/
def dismissPostError : String := "plugin.message_will_be_posted.dismiss_post"

/-- Modelled from the spec: `model.Post.IsSystemMessage` (not under
`src/`) — "declared message type collides with a reserved system-message
namespace" — true when the type carries the system prefix token. -/
def Post.IsSystemMessage (p : Post) : Bool :=
  String.startsWith p.PostType systemMessageTypePre

/-- Modelled from the spec: `model.Post.AddProp` (not under `src/`) —
sets one key of the property map. -/
def Post.AddProp (p : Post) (k : String) (v : PropVal) : Post :=
  { p with Props := p.Props.set k v }

/-- Modelled from the spec: the server-assigned property keys that
`model.Post.SanitizeProps` strips — "fields a client must not set
directly".  One representative key suffices for the claims. -/
def serverReservedPropKeys : List String := ["add_channel_member"]

/-- Modelled from the spec: `model.Post.SanitizeProps` (not under `src/`)
— "normalizes/sanitizes the property map to strip fields a client must
not set directly". -/
def Post.SanitizeProps (p : Post) : Post :=
  { p with Props :=
      (List.filter (fun kv => ¬ serverReservedPropKeys.contains kv.1) p.Props : List (String × PropVal)) }

/-- Modelled from the spec: `model.ParseHashtags` (not under `src/`) —
"hashtag extraction from message text (a simple token-scan)".  Returns
the space-joined hashtag words of the message. -/
def ParseHashtags (msg : String) : String :=
  String.intercalate " " ((msg.splitOn " ").filter (fun w => String.startsWith w "#"))

/-- Modelled from the spec: `model.FileIds.Equals` (not under `src/`) —
structural equality of the two file-reference lists. -/
def fileIdsEquals (a b : List String) : Bool := a = b

/-- Modelled from the spec: `model.Post.AttachmentsEqual` (not under
`src/`) — the structural-equality check on the property-derived
attachments of two posts. -/
def Post.AttachmentsEqual (a b : Post) : Bool :=
  a.Props.get? "attachments" = b.Props.get? "attachments"

/-- Mirror of `model.PostList`: an order of post ids plus an id→post
mapping. -/
structure PostList where
  Order : List String
  Posts : List (String × Post)
deriving Repr, DecidableEq

/-- The empty `model.NewPostList()`. -/
def NewPostList : PostList := ⟨[], []⟩

/-- Lookup in the id→post mapping (Go map indexing, `nil` = `none`). -/
def PostList.get? (pl : PostList) (id : String) : Option Post :=
  (List.lookup id pl.Posts : Option Post)

/-- Modelled from the spec: `model.PostList.AddPost` (not under `src/`)
— record a post in the id→post mapping. -/
def PostList.AddPost (pl : PostList) (p : Post) : PostList :=
  { pl with Posts := (p.Id, p) :: (List.filter (fun kv => kv.1 ≠ p.Id) pl.Posts) }

/-- Modelled from the spec: `model.PostList.AddOrder` (not under `src/`)
— append an id to the order. -/
def PostList.AddOrder (pl : PostList) (id : String) : PostList :=
  { pl with Order := pl.Order ++ [id] }

/-- Modelled from the spec: `model.PostList.IsChannelId` (not under
`src/`) — every post of the list lives in the given channel. -/
def PostList.IsChannelId (pl : PostList) (channelId : String) : Bool :=
  pl.Posts.all (fun kv => kv.2.ChannelId = channelId)

/-- One step of the union-merge: insert an id of `other` unless already
present, skipping ids with no post in `other`'s mapping. -/
def PostList.extendStep (other acc : PostList) (id : String) : PostList :=
  if id ∈ acc.Order then acc
  else
    match other.get? id with
    | some p => (acc.AddPost p).AddOrder id
    | none => acc

/-- Modelled from the spec: `model.PostList.Extend` (not under `src/`)
— union-merge of `other` into `pl`, "deduplicating by identifier": ids
already present in the order are not re-inserted; an order id with no
post in `other`'s mapping is skipped. -/
def PostList.Extend (pl other : PostList) : PostList :=
  other.Order.foldl (PostList.extendStep other) pl

/-- Creation time of an id within a list, for the sort comparator (0 for
an id with no post, where Go would dereference nil). -/
def PostList.createAtOf (pl : PostList) (id : String) : Int :=
  match pl.get? id with
  | some p => p.CreateAt
  | none => 0

/-- The sort order used by `SortByCreateAt`: newest first. -/
def PostList.caGE (pl : PostList) (a b : String) : Prop :=
  pl.createAtOf b ≤ pl.createAtOf a

instance (pl : PostList) : DecidableRel pl.caGE :=
  fun a b => inferInstanceAs (Decidable (pl.createAtOf b ≤ pl.createAtOf a))

/-- Modelled from the spec: `model.PostList.SortByCreateAt` (not under
`src/`) — total ordering of the order list by creation time (newest
first). -/
def PostList.SortByCreateAt (pl : PostList) : PostList :=
  { pl with Order := List.insertionSort pl.caGE pl.Order }

/-! ## Deduplication cache and store state -/

/-- The `seenPendingPostIdsCache`: pending-post-id → recorded value,
where `""` (`unknownPostId`) is the in-flight sentinel and a non-empty
value is the final post id.  The 30s TTL and 25000-entry bound are
enforced by the cache itself; within one cache window (no expiry, no
eviction) the cache is a plain map, which is what this model captures. -/
abbrev Cache : Type := List (String × String)

instance : DecidableEq Cache := inferInstanceAs (DecidableEq (List (String × String)))

instance : Repr Cache := inferInstanceAs (Repr (List (String × String)))

/-- Cache lookup. -/
def Cache.get? (c : Cache) (k : String) : Option String :=
  (List.lookup k c : Option String)

/-- `utils.Cache.GetOrAdd`: atomically return the existing value
(`loaded = true`), or insert the given one and return it
(`loaded = false`). -/
def Cache.GetOrAdd (c : Cache) (k v : String) : (String × Bool) × Cache :=
  match c.get? k with
  | some old => ((old, true), c)
  | none => ((v, false), (k, v) :: c)

/-- `utils.Cache.AddWithExpiresInSecs`: overwrite the value under a key. -/
def Cache.AddWithExpiresInSecs (c : Cache) (k v : String) : Cache :=
  (k, v) :: (List.filter (fun kv => kv.1 ≠ k) c)

/-- `utils.Cache.Remove`: release a key. -/
def Cache.Remove (c : Cache) (k : String) : Cache :=
  (List.filter (fun kv => kv.1 ≠ k) c : List (String × String))

/-- The post repository visible to this pipeline: id → post, as read by
`Store.Post().GetSingle` and written by `Store.Post().Save`. -/
abbrev PostStore : Type := List (String × Post)

instance : DecidableEq PostStore := inferInstanceAs (DecidableEq (List (String × Post)))

instance : Repr PostStore := inferInstanceAs (Repr (List (String × Post)))

/-- `Store.Post().GetSingle`. -/
def PostStore.getSingle (s : PostStore) (id : String) : Option Post :=
  (List.lookup id s : Option Post)

/-- Record a saved post. -/
def PostStore.put (s : PostStore) (p : Post) : PostStore :=
  (p.Id, p) :: (List.filter (fun kv => kv.1 ≠ p.Id) s)

/-- The shared mutable state of the create pipeline: the dedup cache and
the post store. -/
structure SrvState where
  cache : Cache
  store : PostStore
deriving Repr, DecidableEq

/-! ## FillInPostProps -/

/-- The external collaborators of `FillInPostProps` (post.go 345-379):
channel-mention extraction (`model.Post.ChannelMentions`, modelled from
the spec as a function of the message text), the team-scoped
channel-by-names lookup (`App.GetChannelsByNames`, app/channel.go) and
the channel-for-post lookup used when no channel is passed. -/
structure PropsEnv where
  mentionsOf : String → List String
  channelsByNames : List String → String → Except AppError (List Channel)
  channelForPost : String → Except AppError Channel

/-- Embedding of `App.FillInPostProps` (post.go lines 345-379): resolve
channel mentions of the message to a display-name map stored under the
`channel_mentions` property (open channels only; an empty map deletes
the property instead). -/
def FillInPostProps (env : PropsEnv) (post : Post) (channel : Option Channel) :
    Except AppError Post :=
  let channelMentions := env.mentionsOf post.Message
  if channelMentions.length > 0 then
    let chRes : Except AppError Channel :=
      match channel with
      | some c => .ok c
      | none =>
        match env.channelForPost post.Id with
        | .ok c => .ok c
        | .error _ =>
          .error { Where := "FillInPostProps", Id := "api.context.invalid_param.app_error",
                   StatusCode := statusBadRequest }
    match chRes with
    | .error e => .error e
    | .ok ch =>
      match env.channelsByNames channelMentions ch.TeamId with
      | .error e => .error e
      | .ok mentionedChannels =>
        let channelMentionsProp : List (String × String) :=
          (mentionedChannels.filter (fun c => c.ChanType = "O")).map
            (fun c => (c.Name, c.DisplayName))
        if channelMentionsProp.length > 0 then
          .ok (post.AddProp "channel_mentions" (.strMap channelMentionsProp))
        else
          .ok { post with Props := post.Props.del "channel_mentions" }
  else
    .ok { post with Props := post.Props.del "channel_mentions" }

/-! ## deduplicateCreatePost and CreatePost -/

/-- `unknownPostId` (post.go line 107): the in-flight sentinel value. -/
def unknownPostId : String := ""

/-- Embedding of `App.deduplicateCreatePost` (post.go lines 100-138).
Returns the found post (`some` = idempotent replay), `none` = proceed
with creation, or the error, together with the possibly updated state. -/
def deduplicateCreatePost (st : SrvState) (post : Post) :
    Except AppError (Option Post) × SrvState :=
  if post.PendingPostId = "" then
    (.ok none, st)
  else
    let res := st.cache.GetOrAdd post.PendingPostId unknownPostId
    let value := res.1.1
    let loaded := res.1.2
    let st := { st with cache := res.2 }
    if ¬ loaded then
      (.ok none, st)
    else if value = unknownPostId then
      (.error { Where := "deduplicateCreatePost",
                Id := "api.post.deduplicate_create_post.pending",
                StatusCode := statusInternalServerError }, st)
    else
      match st.store.getSingle value with
      | none =>
        (.error { Where := "deduplicateCreatePost",
                  Id := "api.post.deduplicate_create_post.failed_to_get",
                  StatusCode := statusInternalServerError }, st)
      | some actualPost => (.ok (some actualPost), st)

/-- The create-shaped plugin hook `MessageWillBePosted`: given the
working post, return a replacement (or nil) and a rejection reason. -/
abbrev CreateHook : Type := Post → Option Post × String

/-- `RunMultiPluginHook` over `MessageWillBePosted` (post.go lines
243-258): short-circuiting fold — a non-empty rejection reason aborts
the chain, a non-nil replacement becomes the working post. -/
def runCreateHooks : List CreateHook → Post → Except String Post
  | [], p => .ok p
  | h :: hs, p =>
    let r := h p
    if r.2 ≠ "" then .error r.2
    else
      match r.1 with
      | some replacement => runCreateHooks hs replacement
      | none => runCreateHooks hs p

/-- Per-request environment of `CreatePost`: config/license reads,
the external store lookups, the plugin chain and the id the store
assigns on save. -/
structure CreateEnv where
  license : Bool
  townSquareIsReadOnly : Bool
  userGet : String → Except AppError User
  threadGet : String → Except AppError PostList
  propsEnv : PropsEnv
  hooks : List CreateHook
  saveErr : Option AppError
  genId : String

/-- Result of one `CreatePost` call: the returned value, the final
state, and how many `Store.Post().Save` writes were performed.
`panicked` records the Go nil-pointer dereference that occurs when the
declared root id is absent from its own fetched thread (post.go line
205). -/
structure CreateOutcome where
  result : Except AppError Post
  state : SrvState
  writes : Nat
  panicked : Bool
deriving Repr

/-- The deferred cache fixup of `CreatePost` (post.go lines 151-162),
run at every return after dedup registered ownership: on error release
the pending id, on success record the saved post's id.  (On a Go panic
the deferred function itself panics on the nil `savedPost`; the cache is
left as is.) -/
def finishCreate (pendingPostId : String) (st : SrvState)
    (result : Except AppError Post) (writes : Nat) : CreateOutcome :=
  if pendingPostId = "" then
    ⟨result, st, writes, false⟩
  else
    match result with
    | .error _ => ⟨result, { st with cache := st.cache.Remove pendingPostId }, writes, false⟩
    | .ok saved =>
      ⟨result, { st with cache := st.cache.AddWithExpiresInSecs pendingPostId saved.Id }, writes, false⟩

/-- Root/parent thread validation of `CreatePost` (post.go lines
192-219), entered only when the post declares a root.  Returns the post
with its `ParentId` defaulted to the root, or the rejection.  `none`
renders the Go panic on a thread that does not contain its own root. -/
def verifyRootParent (env : CreateEnv) (post : Post) :
    Option (Except AppError Post) :=
  match env.threadGet post.RootId with
  | .error _ =>
    some (.error { Where := "createPost", Id := "api.post.create_post.root_id.app_error",
                   StatusCode := statusBadRequest })
  | .ok parentPostList =>
    if parentPostList.Posts.length = 0 ∨ ¬ parentPostList.IsChannelId post.ChannelId then
      some (.error { Where := "createPost", Id := "api.post.create_post.channel_root_id.app_error",
                     StatusCode := statusInternalServerError })
    else
      match parentPostList.get? post.RootId with
      | none => none
      | some rootPost =>
        if rootPost.RootId.length > 0 then
          some (.error { Where := "createPost", Id := "api.post.create_post.root_id.app_error",
                         StatusCode := statusBadRequest })
        else
          let post := if post.ParentId = "" then { post with ParentId := post.RootId } else post
          if post.RootId ≠ post.ParentId then
            match parentPostList.get? post.ParentId with
            | none =>
              some (.error { Where := "createPost", Id := "api.post.create_post.parent_id.app_error",
                             StatusCode := statusInternalServerError })
            | some _ => some (.ok post)
          else
            some (.ok post)

/-- The attachments migration shim (post.go lines 227-238): a
legacy-typed attachments property is re-encoded through the generic JSON
shape. -/
def migrateAttachmentsProp (post : Post) : Post :=
  match post.Props.get? "attachments" with
  | some (.slackAttachments a) => post.AddProp "attachments" (.jsonArr a)
  | _ => post

/-- The body of `CreatePost` after deduplication registered ownership
(post.go lines 164-314).  Side effects without bearing on the claims are
elided: post-commit hooks, async indexing, metrics, file attachment
(logged-only failures, post.go 296-304), and `handlePostEvents` /
`PreparePostForClient` (the latter rendered as the identity, so the
"ok" payload is the saved post). -/
def createPostBody (env : CreateEnv) (st : SrvState) (post0 : Post) (channel : Channel) :
    CreateOutcome :=
  let pendingPostId := post0.PendingPostId
  let post := post0.SanitizeProps
  match env.userGet post.UserId with
  | .error e => finishCreate pendingPostId st (.error e) 0
  | .ok user =>
    let post := if user.IsBot then post.AddProp "from_bot" (.str "true") else post
    if env.license ∧ env.townSquareIsReadOnly ∧ ¬ post.IsSystemMessage ∧
        channel.Name = defaultChannelName ∧ ¬ user.canManageSystem then
      finishCreate pendingPostId st
        (.error { Where := "createPost", Id := "api.post.create_post.town_square_read_only",
                  StatusCode := statusForbidden }) 0
    else
      let verified : Option (Except AppError Post) :=
        if post.RootId.length > 0 then verifyRootParent env post else some (.ok post)
      match verified with
      | none => ⟨.error { Where := "createPost", Id := "panic", StatusCode := 0 }, st, 0, true⟩
      | some (.error e) => finishCreate pendingPostId st (.error e) 0
      | some (.ok post) =>
        let post := { post with Hashtags := ParseHashtags post.Message }
        match FillInPostProps env.propsEnv post (some channel) with
        | .error e => finishCreate pendingPostId st (.error e) 0
        | .ok post =>
          let post := migrateAttachmentsProp post
          match runCreateHooks env.hooks post with
          | .error rejectionReason =>
            let id := if rejectionReason = dismissPostError then dismissPostError
                      else "Post rejected by plugin. " ++ rejectionReason
            finishCreate pendingPostId st
              (.error { Where := "createPost", Id := id, StatusCode := statusBadRequest }) 0
          | .ok post =>
            match env.saveErr with
            | some e => finishCreate pendingPostId st (.error e) 0
            | none =>
              let rpost := { post with Id := if post.Id = "" then env.genId else post.Id }
              let st := { st with store := st.store.put rpost }
              -- post.go line 272: record pending id → actual id (unconditionally)
              let st := { st with cache := st.cache.AddWithExpiresInSecs pendingPostId rpost.Id }
              finishCreate pendingPostId st (.ok rpost) 1

/-- Embedding of `App.CreatePost` (post.go lines 140-315). -/
def CreatePost (env : CreateEnv) (st : SrvState) (post : Post) (channel : Channel) :
    CreateOutcome :=
  match deduplicateCreatePost st post with
  | (.error e, st) => ⟨.error e, st, 0, false⟩
  | (.ok (some foundPost), st) => ⟨.ok foundPost, st, 0, false⟩
  | (.ok none, st) => createPostBody env st post channel

/-! ## UpdatePost -/

/-- The update-shaped plugin hook `MessageWillBeUpdated`: given the
working new version (nil once a previous hook rejected — the chain in
post.go does not short-circuit, see `runUpdateHooks`) and the old post,
return a replacement (or nil) and a rejection reason. -/
abbrev UpdateHook : Type := Option Post → Post → Option Post × String

/-- `RunMultiPluginHook` over `MessageWillBeUpdated` (post.go lines
543-546).  The callback returns `post != nil` — `post` being the
(non-nil) function argument, not `newPost` — so the chain never
short-circuits: every hook runs, each overwriting both the working post
and the rejection reason. -/
def runUpdateHooks (hooks : List UpdateHook) (oldPost newPost : Post) :
    Option Post × String :=
  hooks.foldl (fun acc h => h acc.1 oldPost) (some newPost, "")

/-- The new-version construction of `UpdatePost` (post.go lines
515-534): copy the old post; overlay message (with recomputed hashtags
and edit timestamp) when it changed; overlay pin/reactions/files/props
unless `safeUpdate`; finally bump the edit timestamp when file
references or property-derived attachments differ from the old version
and the message change did not already bump it. -/
def buildNewPost (oldPost post : Post) (now : Int) (safeUpdate : Bool) : Post :=
  let newPost := oldPost
  let newPost :=
    if newPost.Message ≠ post.Message then
      { newPost with Message := post.Message, EditAt := now,
                     Hashtags := ParseHashtags post.Message }
    else newPost
  let newPost :=
    if ¬ safeUpdate then
      { newPost with IsPinned := post.IsPinned, HasReactions := post.HasReactions,
                     FileIds := post.FileIds, Props := post.Props }
    else newPost
  -- Avoid deep-equal checks if EditAt was already modified through message change
  if newPost.EditAt = oldPost.EditAt ∧
      (¬ fileIdsEquals oldPost.FileIds newPost.FileIds ∨ ¬ oldPost.AttachmentsEqual newPost) then
    { newPost with EditAt := now }
  else newPost

/-- Per-request environment of `UpdatePost`: config/license reads, the
store and channel lookups, the props collaborators, the plugin chain and
the store-update outcome. -/
structure UpdateEnv where
  license : Bool
  postEditTimeLimit : Int
  now : Int
  storeGet : String → Except AppError PostList
  getChannel : String → Except AppError Channel
  propsEnv : PropsEnv
  hooks : List UpdateHook
  updateErr : Option AppError

/-- Result of one `UpdatePost` call: the returned value and the post
handed to `Store.Post().Update` when the write happened. -/
structure UpdateOutcome where
  result : Except AppError Post
  written : Option Post
deriving Repr

/-- Embedding of `App.UpdatePost` (post.go lines 475-589).  Post-commit
hooks, async indexing, broadcast and cache invalidation are elided;
`PreparePostForClient` is rendered as the identity, so the "ok" payload
is the stored new version. -/
def UpdatePost (env : UpdateEnv) (post0 : Post) (safeUpdate : Bool) : UpdateOutcome :=
  let post := post0.SanitizeProps
  match env.storeGet post.Id with
  | .error e => ⟨.error e, none⟩
  | .ok postLists =>
    match postLists.get? post.Id with
    | none =>
      ⟨.error { Where := "UpdatePost", Id := "api.post.update_post.find.app_error",
                StatusCode := statusBadRequest }, none⟩
    | some oldPost =>
      if oldPost.DeleteAt ≠ 0 then
        ⟨.error { Where := "UpdatePost", Id := "api.post.update_post.permissions_details.app_error",
                  StatusCode := statusBadRequest }, none⟩
      else if oldPost.IsSystemMessage then
        ⟨.error { Where := "UpdatePost", Id := "api.post.update_post.system_message.app_error",
                  StatusCode := statusBadRequest }, none⟩
      else if env.license ∧ env.postEditTimeLimit ≠ -1 ∧
          env.now > oldPost.CreateAt + env.postEditTimeLimit * 1000 ∧
          post.Message ≠ oldPost.Message then
        ⟨.error { Where := "UpdatePost",
                  Id := "api.post.update_post.permissions_time_limit.app_error",
                  StatusCode := statusBadRequest }, none⟩
      else
        match env.getChannel oldPost.ChannelId with
        | .error e => ⟨.error e, none⟩
        | .ok channel =>
          if channel.DeleteAt ≠ 0 then
            ⟨.error { Where := "UpdatePost",
                      Id := "api.post.update_post.can_not_update_post_in_deleted.error",
                      StatusCode := statusBadRequest }, none⟩
          else
            let newPost := buildNewPost oldPost post env.now safeUpdate
            -- FillInPostProps is applied to `post` (mutated in place in Go),
            -- not to `newPost`; only its error outcome affects the flow.
            match FillInPostProps env.propsEnv post none with
            | .error e => ⟨.error e, none⟩
            | .ok _ =>
              let hookRes := runUpdateHooks env.hooks oldPost newPost
              match hookRes.1 with
              | none =>
                ⟨.error { Where := "UpdatePost",
                          Id := "Post rejected by plugin. " ++ hookRes.2,
                          StatusCode := statusBadRequest }, none⟩
              | some newPost =>
                match env.updateErr with
                | some e => ⟨.error e, none⟩
                | none => ⟨.ok newPost, some newPost⟩

/-! ## Search aggregators -/

/-- Mirror of `model.SearchParams`, restricted to the fields post.go
touches. -/
structure SearchParams where
  Terms : String
  OrTerms : Bool
  InChannels : List String
  ExcludedChannels : List String
  FromUsers : List String
  ExcludedUsers : List String
  IncludeDeletedChannels : Bool
  SearchWithoutUserId : Bool
deriving Repr, DecidableEq

/-- The result-merging loop of `searchPostsInTeam` (post.go lines
941-950): drain the channel in arrival order, aborting with the first
error, union-merging otherwise, then sort. -/
def mergeSearchResults : List (Except AppError PostList) → PostList → Except AppError PostList
  | [], posts => .ok posts.SortByCreateAt
  | .error e :: _, _ => .error e
  | .ok data :: rest, posts => mergeSearchResults rest (posts.Extend data)

/-- Embedding of `App.searchPostsInTeam` (post.go lines 916-951),
rendered sequentially: the fan-out launches one store query per
specification (skipping the standalone `"*"` wildcard before applying
`modifierFun`), and the fan-in drains results in one arrival order —
here, launch order.  The second component instruments which
specifications were actually queried. -/
def searchPostsInTeam (search : SearchParams → Except AppError PostList)
    (paramsList : List SearchParams) (modifierFun : SearchParams → SearchParams) :
    Except AppError PostList × List SearchParams :=
  let queried := paramsList.filter (fun params => params.Terms ≠ "*")
  let results := queried.map (fun params => search (modifierFun params))
  (mergeSearchResults results NewPostList, queried)

/-- Mirror of `model.PostSearchResults` (a post list plus per-post match
metadata). -/
structure PostSearchResults where
  postList : PostList
  Matches : List (String × List String)
deriving Repr, DecidableEq

/-- External collaborators of `esSearchPostsInTeamForUser`: the
name→channel / name→user resolvers behind the conversion helpers, the
membership lookup, the Elasticsearch query and the posts-by-ids store
read. -/
structure ESEnv where
  channelByNameIn : String → Except Unit Channel
  userByName : String → Except Unit User
  getChannelsForUser : Except AppError (List Channel)
  esSearch : List Channel → List SearchParams → Nat → Nat →
    Except AppError (List String × List (String × List String))
  getPostsByIds : List String → Except AppError (List Post)

/-- Embedding of `App.convertChannelNamesToChannelIds` (post.go lines
953-963): best-effort, an unresolvable name is logged and left as is. -/
def convertChannelNamesToChannelIds (env : ESEnv) (channels : List String) : List String :=
  channels.map (fun channelName =>
    match env.channelByNameIn channelName with
    | .ok channel => channel.Id
    | .error _ => channelName)

/-- Embedding of `App.convertUserNameToUserIds` (post.go lines 965-974):
best-effort, an unresolvable username is logged and left as is. -/
def convertUserNameToUserIds (env : ESEnv) (usernames : List String) : List String :=
  usernames.map (fun username =>
    match env.userByName username with
    | .ok user => user.Id
    | .error _ => username)

/-- Embedding of `App.esSearchPostsInTeamForUser` (post.go lines
985-1038): resolve name filters, drop `"*"` specifications, restrict to
the user's channels, query the index, then fetch the posts by id and
keep only those not soft-deleted. -/
def esSearchPostsInTeamForUser (env : ESEnv) (paramsList : List SearchParams)
    (isOrSearch : Bool) (page perPage : Nat) : Except AppError PostSearchResults :=
  let finalParamsList :=
    (paramsList.filter (fun params => params.Terms ≠ "*")).map (fun params =>
      { params with
          OrTerms := isOrSearch,
          InChannels := convertChannelNamesToChannelIds env params.InChannels,
          ExcludedChannels := convertChannelNamesToChannelIds env params.ExcludedChannels,
          FromUsers := convertUserNameToUserIds env params.FromUsers,
          ExcludedUsers := convertUserNameToUserIds env params.ExcludedUsers })
  if finalParamsList.length = 0 then .ok ⟨NewPostList, []⟩
  else
    match env.getChannelsForUser with
    | .error e => .error e
    | .ok userChannels =>
      match env.esSearch userChannels finalParamsList page perPage with
      | .error e => .error e
      | .ok (postIds, matchesMd) =>
        if postIds.length = 0 then .ok ⟨NewPostList, matchesMd⟩
        else
          match env.getPostsByIds postIds with
          | .error e => .error e
          | .ok posts =>
            let postList := posts.foldl
              (fun pl p => if p.DeleteAt = 0 then (pl.AddPost p).AddOrder p.Id else pl)
              NewPostList
            .ok ⟨postList, matchesMd⟩

/-! ## Requests sharing an idempotency token -/

/-- One create request: its environment, post and channel. -/
structure CreateReq where
  env : CreateEnv
  post : Post
  channel : Channel

/-- Process create requests one after another (one interleaving of the
concurrent executions), accumulating the number of `Store.Post().Save`
writes. -/
def runCreateRequests : List CreateReq → SrvState → SrvState × Nat
  | [], st => (st, 0)
  | r :: rest, st =>
    let o := CreatePost r.env st r.post r.channel
    let res := runCreateRequests rest o.state
    (res.1, o.writes + res.2)

/-! ### Cache helper lemmas -/

theorem Cache.get?_add_self (c : Cache) (k v : String) :
    (c.AddWithExpiresInSecs k v).get? k = some v := by
  simp [Cache.AddWithExpiresInSecs, Cache.get?, List.lookup]

theorem lookup_cons_ne {β : Type} {k a : String} (b : β) (l : List (String × β)) (h : k ≠ a) :
    List.lookup k ((a, b) :: l) = List.lookup k l := by
  have hb : (k == a) = false := beq_eq_false_iff_ne.mpr h
  simp [List.lookup, hb]

theorem lookup_filter_ne_none {β : Type} (c : List (String × β)) (k : String) :
    List.lookup k (List.filter (fun kv => kv.1 ≠ k) c) = none := by
  induction c with
  | nil => rfl
  | cons hd tl ih =>
    obtain ⟨a, b⟩ := hd
    rw [List.filter_cons]
    by_cases h : a = k
    · simpa [h] using ih
    · have h2 : k ≠ a := fun hk => h hk.symm
      simpa [h, lookup_cons_ne b _ h2] using ih

theorem lookup_filter_ne_same {β : Type} (c : List (String × β)) (k k' : String) (hne : k' ≠ k) :
    List.lookup k' (List.filter (fun kv => kv.1 ≠ k) c) = List.lookup k' c := by
  induction c with
  | nil => rfl
  | cons hd tl ih =>
    obtain ⟨a, b⟩ := hd
    rw [List.filter_cons]
    by_cases h : a = k
    · subst h
      rw [lookup_cons_ne b _ hne]
      simpa using ih
    · by_cases h3 : k' = a
      · subst h3
        simp [h, List.lookup]
      · simp only [h, decide_not]
        simpa [lookup_cons_ne b _ h3] using ih

theorem Cache.get?_remove_self (c : Cache) (k : String) :
    (c.Remove k).get? k = none :=
  lookup_filter_ne_none c k

/-- A request whose idempotency token is already recorded in the cache
(final id or sentinel) resolves entirely inside `deduplicateCreatePost`:
no store write and no state change. -/
theorem CreatePost_cache_hit (env : CreateEnv) (st : SrvState) (post : Post)
    (channel : Channel) (v : String)
    (hne : post.PendingPostId ≠ "")
    (hget : st.cache.get? post.PendingPostId = some v) :
    (CreatePost env st post channel).writes = 0 ∧
      (CreatePost env st post channel).state = st := by
  unfold CreatePost deduplicateCreatePost Cache.GetOrAdd
  rw [if_neg hne, hget]
  by_cases hv : v = unknownPostId
  · simp [hv]
  · cases hs : st.store.getSingle v <;> simp [hv, hs]

theorem finishCreate_error_writes (pid : String) (st : SrvState) (e : AppError) (w : Nat) :
    (finishCreate pid st (.error e) w).writes = w := by
  unfold finishCreate
  split <;> rfl

theorem finishCreate_ok_writes (pid : String) (st : SrvState) (p : Post) (w : Nat) :
    (finishCreate pid st (.ok p) w).writes = w := by
  unfold finishCreate
  split <;> rfl

theorem finishCreate_ok_cache (pid : String) (st : SrvState) (p : Post) (w : Nat)
    (h : pid ≠ "") :
    (finishCreate pid st (.ok p) w).state.cache.get? pid = some p.Id := by
  unfold finishCreate
  rw [if_neg h]
  exact Cache.get?_add_self _ _ _

/-- The body of `CreatePost` performs at most one store write, and when
it writes, the deferred cache fixup leaves the idempotency token mapped
to the saved post's id. -/
theorem createPostBody_writes (env : CreateEnv) (st : SrvState) (post : Post)
    (channel : Channel) (hne : post.PendingPostId ≠ "") :
    (createPostBody env st post channel).writes ≤ 1 ∧
      ((createPostBody env st post channel).writes = 1 →
        ((createPostBody env st post channel).state.cache.get? post.PendingPostId).isSome) := by
  unfold createPostBody
  dsimp only
  repeat' split
  all_goals
    simp [finishCreate_error_writes, finishCreate_ok_writes, finishCreate_ok_cache _ _ _ _ hne]

/-- A request whose token is not yet in the cache writes at most once,
and after a write the token is mapped in the cache. -/
theorem CreatePost_cache_miss (env : CreateEnv) (st : SrvState) (post : Post)
    (channel : Channel)
    (hne : post.PendingPostId ≠ "")
    (hget : st.cache.get? post.PendingPostId = none) :
    (CreatePost env st post channel).writes ≤ 1 ∧
      ((CreatePost env st post channel).writes = 1 →
        ((CreatePost env st post channel).state.cache.get? post.PendingPostId).isSome) := by
  unfold CreatePost deduplicateCreatePost Cache.GetOrAdd
  rw [if_neg hne, hget]
  exact createPostBody_writes env _ post channel hne

/-- Idempotent replay: a token mapped to a final post id returns the
stored post, without touching the state. -/
theorem CreatePost_replay (env : CreateEnv) (st : SrvState) (post : Post)
    (channel : Channel) (id : String) (p : Post)
    (hne : post.PendingPostId ≠ "")
    (hget : st.cache.get? post.PendingPostId = some id)
    (hid : id ≠ unknownPostId)
    (hp : st.store.getSingle id = some p) :
    (CreatePost env st post channel).result = .ok p ∧
      (CreatePost env st post channel).writes = 0 ∧
      (CreatePost env st post channel).state = st := by
  unfold CreatePost deduplicateCreatePost Cache.GetOrAdd
  rw [if_neg hne, hget]
  simp [hid, hp]

/-- While the token is mapped (sentinel or final id), no later request
with that token writes. -/
theorem runCreateRequests_present (t : String) (reqs : List CreateReq) (st : SrvState)
    (hne : t ≠ "")
    (hreq : ∀ r ∈ reqs, r.post.PendingPostId = t)
    (hsome : (st.cache.get? t).isSome) :
    (runCreateRequests reqs st).2 = 0 := by
  induction reqs generalizing st with
  | nil => rfl
  | cons r rest ih =>
    have hpid : r.post.PendingPostId = t := hreq r (by simp)
    obtain ⟨v, hv⟩ := Option.isSome_iff_exists.mp hsome
    have h1 := CreatePost_cache_hit r.env st r.post r.channel v
      (by rw [hpid]; exact hne) (by rw [hpid]; exact hv)
    show (CreatePost r.env st r.post r.channel).writes +
      (runCreateRequests rest (CreatePost r.env st r.post r.channel).state).2 = 0
    rw [h1.1, h1.2]
    simpa using ih st (fun x hx => hreq x (List.mem_cons_of_mem r hx)) hsome

/-- A sequence of requests sharing one idempotency token, starting from
a state where the token is unseen, performs at most one store write. -/
theorem runCreateRequests_atMostOne (t : String) (reqs : List CreateReq) (st : SrvState)
    (hne : t ≠ "")
    (hreq : ∀ r ∈ reqs, r.post.PendingPostId = t)
    (hnone : st.cache.get? t = none) :
    (runCreateRequests reqs st).2 ≤ 1 := by
  induction reqs generalizing st with
  | nil => simp [runCreateRequests]
  | cons r rest ih =>
    have hpid : r.post.PendingPostId = t := hreq r (by simp)
    have h2 := CreatePost_cache_miss r.env st r.post r.channel
      (by rw [hpid]; exact hne) (by rw [hpid]; exact hnone)
    have hrest : ∀ x ∈ rest, x.post.PendingPostId = t :=
      fun x hx => hreq x (List.mem_cons_of_mem r hx)
    show (CreatePost r.env st r.post r.channel).writes +
      (runCreateRequests rest (CreatePost r.env st r.post r.channel).state).2 ≤ 1
    by_cases hS : (((CreatePost r.env st r.post r.channel).state.cache.get? t)).isSome
    · have h0 := runCreateRequests_present t rest _ hne hrest hS
      omega
    · have hN : (CreatePost r.env st r.post r.channel).state.cache.get? t = none :=
        Option.not_isSome_iff_eq_none.mp hS
      have hw0 : (CreatePost r.env st r.post r.channel).writes = 0 := by
        by_contra hc
        have hw1 : (CreatePost r.env st r.post r.channel).writes = 1 := by omega
        exact hS (by rw [← hpid]; exact h2.2 hw1)
      have := ih _ hrest hN
      omega

/-! ## Concrete fixtures used by witnesses and counterexamples -/

/-- A props environment whose mention extraction finds nothing. -/
def trivialPropsEnv : PropsEnv :=
  ⟨fun _ => [], fun _ _ => .ok [], fun _ => .ok ⟨"chan1", "general", "General", "team1", "O", 0⟩⟩

def sampleChannel : Channel := ⟨"chan1", "general", "General", "team1", "O", 0⟩

def samplePost : Post :=
  ⟨"", "chan1", "user1", "", "", "hello world", "", "tok1", false, false, [], [], 5, 0, 0, ""⟩

def storedPost : Post :=
  ⟨"p1", "chan1", "user1", "", "", "hi", "", "tok1", false, false, [], [], 3, 0, 0, ""⟩

/-- A state where token `tok1` maps to the final post id `p1`. -/
def sampleState : SrvState := ⟨[("tok1", "p1")], [("p1", storedPost)]⟩

/-- A state where token `tok1` still holds the in-flight sentinel. -/
def pendingState : SrvState := ⟨[("tok1", "")], []⟩

def sampleCreateEnv : CreateEnv :=
  { license := false, townSquareIsReadOnly := false,
    userGet := fun _ => .ok ⟨"user1", false, false⟩,
    threadGet := fun _ => .error ⟨"SqlPostStore.Get", "store.sql_post.get.app_error", statusNotFound⟩,
    propsEnv := trivialPropsEnv,
    hooks := [], saveErr := none, genId := "p9" }

/-! ## C1 -/

/-- **C1.** For every create request whose idempotency token already maps
to a recorded final post id in the dedup cache, `CreatePost` returns that
previously created post verbatim and performs no store write; and any
sequence of requests sharing one idempotency token, starting from a
state where the token is unseen, performs at most one store write in
total. -/
theorem claim_C1_idempotent_create :
    (∀ (env : CreateEnv) (st : SrvState) (post : Post) (channel : Channel)
        (id : String) (p : Post),
        post.PendingPostId ≠ "" →
        st.cache.get? post.PendingPostId = some id →
        id ≠ unknownPostId →
        st.store.getSingle id = some p →
        (CreatePost env st post channel).result = .ok p ∧
          (CreatePost env st post channel).writes = 0) ∧
    (∀ (t : String) (reqs : List CreateReq) (st : SrvState),
        t ≠ "" →
        (∀ r ∈ reqs, r.post.PendingPostId = t) →
        st.cache.get? t = none →
        (runCreateRequests reqs st).2 ≤ 1) := by
  constructor
  · intro env st post channel id p hne hget hid hp
    have h := CreatePost_replay env st post channel id p hne hget hid hp
    exact ⟨h.1, h.2.1⟩
  · exact fun t reqs st hne hreq hnone =>
      runCreateRequests_atMostOne t reqs st hne hreq hnone

/-- Witness for C1: a concrete replay returning the stored post with no
write, and two concrete requests sharing a token writing at most once. -/
theorem claim_C1_idempotent_create_witness :
    (CreatePost sampleCreateEnv sampleState samplePost sampleChannel).result = .ok storedPost ∧
      (CreatePost sampleCreateEnv sampleState samplePost sampleChannel).writes = 0 ∧
      (runCreateRequests
          [⟨sampleCreateEnv, samplePost, sampleChannel⟩,
           ⟨sampleCreateEnv, samplePost, sampleChannel⟩] ⟨[], []⟩).2 ≤ 1 := by
  refine ⟨?_, ?_, ?_⟩
  · exact (claim_C1_idempotent_create.1 sampleCreateEnv sampleState samplePost sampleChannel
      "p1" storedPost (by decide) (by rfl) (by decide) (by rfl)).1
  · exact (claim_C1_idempotent_create.1 sampleCreateEnv sampleState samplePost sampleChannel
      "p1" storedPost (by decide) (by rfl) (by decide) (by rfl)).2
  · exact claim_C1_idempotent_create.2 "tok1"
      [⟨sampleCreateEnv, samplePost, sampleChannel⟩,
       ⟨sampleCreateEnv, samplePost, sampleChannel⟩] ⟨[], []⟩
      (by decide) (by decide) (by rfl)

/-! ## C2 -/

/-- The error identifiers that `CreatePost`'s other failure paths in
post.go produce themselves (bad-request, forbidden, not-found and
internal classes), against which the dedup-race identifier is compared. -/
def createPipelineErrorIds : List String :=
  ["api.post.deduplicate_create_post.failed_to_get",
   "api.post.create_post.town_square_read_only",
   "api.post.create_post.root_id.app_error",
   "api.post.create_post.channel_root_id.app_error",
   "api.post.create_post.parent_id.app_error",
   "api.context.invalid_param.app_error",
   "api.post.create_post.can_not_post_to_deleted.error"]

/-- **C2 (amended).** A create request whose token still holds the
in-flight sentinel fails, with no store write, with an error whose
identifier `api.post.deduplicate_create_post.pending` is distinct from
every identifier the create pipeline uses for bad-request, forbidden,
not-found and internal failures — but whose HTTP status code is 500, the
internal-failure status, not a distinct conflict/retryable status. -/
theorem claim_C2_pending_error (env : CreateEnv) (st : SrvState) (post : Post)
    (channel : Channel)
    (hne : post.PendingPostId ≠ "")
    (hget : st.cache.get? post.PendingPostId = some unknownPostId) :
    (CreatePost env st post channel).result =
      .error { Where := "deduplicateCreatePost",
               Id := "api.post.deduplicate_create_post.pending",
               StatusCode := statusInternalServerError } ∧
      (CreatePost env st post channel).writes = 0 ∧
      "api.post.deduplicate_create_post.pending" ∉ createPipelineErrorIds ∧
      statusInternalServerError ≠ statusConflict := by
  refine ⟨?_, ?_, by decide, by decide⟩
  · unfold CreatePost deduplicateCreatePost Cache.GetOrAdd
    rw [if_neg hne, hget]
    simp
  · exact (CreatePost_cache_hit env st post channel unknownPostId hne hget).1

/-- Witness for C2 at the concrete sentinel state. -/
theorem claim_C2_pending_error_witness :
    (CreatePost sampleCreateEnv pendingState samplePost sampleChannel).result =
      .error { Where := "deduplicateCreatePost",
               Id := "api.post.deduplicate_create_post.pending",
               StatusCode := statusInternalServerError } ∧
      (CreatePost sampleCreateEnv pendingState samplePost sampleChannel).writes = 0 ∧
      "api.post.deduplicate_create_post.pending" ∉ createPipelineErrorIds ∧
      statusInternalServerError ≠ statusConflict :=
  claim_C2_pending_error sampleCreateEnv pendingState samplePost sampleChannel
    (by decide) (by rfl)

/-- **C2 counterexample.** At a concrete sentinel state the "still
processing" error is reported with HTTP status 500 — exactly the
internal-failure status and not the conflict status — so it is not
classified distinctly from internal failures. -/
theorem claim_C2_counterexample :
    (CreatePost sampleCreateEnv pendingState samplePost sampleChannel).result =
      .error { Where := "deduplicateCreatePost",
               Id := "api.post.deduplicate_create_post.pending",
               StatusCode := 500 } ∧
      statusInternalServerError = 500 ∧ statusConflict = 409 := by
  exact ⟨by rfl, by rfl, by rfl⟩

/-! ## C6 -/

theorem finishCreate_result (pid : String) (st : SrvState)
    (r : Except AppError Post) (w : Nat) :
    (finishCreate pid st r w).result = r := by
  unfold finishCreate
  split
  · rfl
  · split <;> rfl


theorem String.length_pos_of_ne (s : String) (h : s ≠ "") : s.length > 0 := by
  cases s with
  | mk data =>
    cases data with
    | nil => exact absurd rfl h
    | cons c cs => simp [String.length]

@[simp] theorem Post.SanitizeProps_Id (p : Post) : (p.SanitizeProps).Id = p.Id := rfl
@[simp] theorem Post.SanitizeProps_ChannelId (p : Post) : (p.SanitizeProps).ChannelId = p.ChannelId := rfl
@[simp] theorem Post.SanitizeProps_UserId (p : Post) : (p.SanitizeProps).UserId = p.UserId := rfl
@[simp] theorem Post.SanitizeProps_RootId (p : Post) : (p.SanitizeProps).RootId = p.RootId := rfl
@[simp] theorem Post.SanitizeProps_ParentId (p : Post) : (p.SanitizeProps).ParentId = p.ParentId := rfl
@[simp] theorem Post.SanitizeProps_Message (p : Post) : (p.SanitizeProps).Message = p.Message := rfl
@[simp] theorem Post.SanitizeProps_PendingPostId (p : Post) : (p.SanitizeProps).PendingPostId = p.PendingPostId := rfl
@[simp] theorem Post.SanitizeProps_IsSystemMessage (p : Post) : (p.SanitizeProps).IsSystemMessage = p.IsSystemMessage := rfl
@[simp] theorem Post.SanitizeProps_IsPinned (p : Post) : (p.SanitizeProps).IsPinned = p.IsPinned := rfl
@[simp] theorem Post.SanitizeProps_HasReactions (p : Post) : (p.SanitizeProps).HasReactions = p.HasReactions := rfl
@[simp] theorem Post.SanitizeProps_FileIds (p : Post) : (p.SanitizeProps).FileIds = p.FileIds := rfl
@[simp] theorem Post.SanitizeProps_CreateAt (p : Post) : (p.SanitizeProps).CreateAt = p.CreateAt := rfl
@[simp] theorem Post.SanitizeProps_EditAt (p : Post) : (p.SanitizeProps).EditAt = p.EditAt := rfl
@[simp] theorem Post.SanitizeProps_DeleteAt (p : Post) : (p.SanitizeProps).DeleteAt = p.DeleteAt := rfl

@[simp] theorem Post.AddProp_Id (p : Post) (k : String) (v : PropVal) : (p.AddProp k v).Id = p.Id := rfl
@[simp] theorem Post.AddProp_ChannelId (p : Post) (k : String) (v : PropVal) : (p.AddProp k v).ChannelId = p.ChannelId := rfl
@[simp] theorem Post.AddProp_UserId (p : Post) (k : String) (v : PropVal) : (p.AddProp k v).UserId = p.UserId := rfl
@[simp] theorem Post.AddProp_RootId (p : Post) (k : String) (v : PropVal) : (p.AddProp k v).RootId = p.RootId := rfl
@[simp] theorem Post.AddProp_ParentId (p : Post) (k : String) (v : PropVal) : (p.AddProp k v).ParentId = p.ParentId := rfl
@[simp] theorem Post.AddProp_Message (p : Post) (k : String) (v : PropVal) : (p.AddProp k v).Message = p.Message := rfl
@[simp] theorem Post.AddProp_PendingPostId (p : Post) (k : String) (v : PropVal) : (p.AddProp k v).PendingPostId = p.PendingPostId := rfl
@[simp] theorem Post.AddProp_IsSystemMessage (p : Post) (k : String) (v : PropVal) : (p.AddProp k v).IsSystemMessage = p.IsSystemMessage := rfl

/-- A root post that itself has a root fails the thread validation with
the bad-request `root_id` error (post.go lines 204-207). -/
theorem verifyRootParent_rootHasRoot (env : CreateEnv) (post : Post)
    (pl : PostList) (rootPost : Post)
    (hthread : env.threadGet post.RootId = .ok pl)
    (hlen : pl.Posts.length ≠ 0)
    (hch : pl.IsChannelId post.ChannelId = true)
    (hrootPost : pl.get? post.RootId = some rootPost)
    (hrr : rootPost.RootId ≠ "") :
    verifyRootParent env post =
      some (.error { Where := "createPost", Id := "api.post.create_post.root_id.app_error",
                     StatusCode := statusBadRequest }) := by
  unfold verifyRootParent
  simp only [hthread, hrootPost]
  rw [if_neg (by simp [hlen, hch])]
  rw [if_pos (String.length_pos_of_ne _ hrr)]

/-- A parent distinct from the root and absent from the root's thread
fails the thread validation with the `parent_id` error (post.go lines
213-218). -/
theorem verifyRootParent_parentMissing (env : CreateEnv) (post : Post)
    (pl : PostList) (rootPost : Post)
    (hthread : env.threadGet post.RootId = .ok pl)
    (hlen : pl.Posts.length ≠ 0)
    (hch : pl.IsChannelId post.ChannelId = true)
    (hrootPost : pl.get? post.RootId = some rootPost)
    (hrr : rootPost.RootId = "")
    (hpne : post.ParentId ≠ "")
    (hppne : post.ParentId ≠ post.RootId)
    (hmiss : pl.get? post.ParentId = none) :
    verifyRootParent env post =
      some (.error { Where := "createPost", Id := "api.post.create_post.parent_id.app_error",
                     StatusCode := statusInternalServerError }) := by
  unfold verifyRootParent
  simp only [hthread, hrootPost]
  rw [if_neg (by simp [hlen, hch])]
  rw [if_neg (by simp [hrr])]
  rw [if_neg hpne]
  rw [if_pos (Ne.symm hppne)]
  simp only [hmiss]

/-- When the root/parent validation rejects, the create body returns
that rejection with no store write. -/
theorem createPostBody_rootError (env : CreateEnv) (st : SrvState) (post : Post)
    (channel : Channel) (u : User) (e : AppError)
    (huser : env.userGet post.UserId = .ok u)
    (hts : env.townSquareIsReadOnly = false)
    (hroot : post.RootId ≠ "")
    (hver : ∀ q : Post, q.RootId = post.RootId → q.ChannelId = post.ChannelId →
        q.ParentId = post.ParentId → verifyRootParent env q = some (.error e)) :
    (createPostBody env st post channel).result = .error e ∧
      (createPostBody env st post channel).writes = 0 := by
  unfold createPostBody
  simp only [Post.SanitizeProps_UserId, huser, hts]
  rw [if_neg (by simp)]
  by_cases hb : u.IsBot
  · rw [if_pos hb]
    rw [if_pos (by simpa using String.length_pos_of_ne _ hroot)]
    rw [hver _ (by simp) (by simp) (by simp)]
    exact ⟨finishCreate_result _ _ _ _, finishCreate_error_writes _ _ _ _⟩
  · rw [if_neg hb]
    rw [if_pos (by simpa using String.length_pos_of_ne _ hroot)]
    rw [hver _ (by simp) (by simp) (by simp)]
    exact ⟨finishCreate_result _ _ _ _, finishCreate_error_writes _ _ _ _⟩

/-- **C6.** For a create request declaring a root post: if the fetched
root post itself has a non-empty root reference, `CreatePost` rejects
with the bad-request `root_id` error; and if the request's parent
differs from its root while absent from the declared root's thread,
`CreatePost` rejects with the `parent_id` error — with no store write in
either case. -/
theorem claim_C6_thread_invariant (env : CreateEnv) (st : SrvState) (post : Post)
    (channel : Channel) (u : User) (pl : PostList) (rootPost : Post)
    (hded : post.PendingPostId = "" ∨ st.cache.get? post.PendingPostId = none)
    (huser : env.userGet post.UserId = .ok u)
    (hts : env.townSquareIsReadOnly = false)
    (hroot : post.RootId ≠ "")
    (hthread : env.threadGet post.RootId = .ok pl)
    (hlen : pl.Posts.length ≠ 0)
    (hch : pl.IsChannelId post.ChannelId = true)
    (hrootPost : pl.get? post.RootId = some rootPost) :
    (rootPost.RootId ≠ "" →
      (CreatePost env st post channel).result =
        .error { Where := "createPost", Id := "api.post.create_post.root_id.app_error",
                 StatusCode := statusBadRequest } ∧
        (CreatePost env st post channel).writes = 0) ∧
    (rootPost.RootId = "" → post.ParentId ≠ "" → post.ParentId ≠ post.RootId →
      pl.get? post.ParentId = none →
      (CreatePost env st post channel).result =
        .error { Where := "createPost", Id := "api.post.create_post.parent_id.app_error",
                 StatusCode := statusInternalServerError } ∧
        (CreatePost env st post channel).writes = 0) := by
  have hbody : CreatePost env st post channel =
      createPostBody env
        (if post.PendingPostId = "" then st
         else { st with cache := (post.PendingPostId, unknownPostId) :: st.cache })
        post channel := by
    rcases hded with h | h
    · unfold CreatePost deduplicateCreatePost
      rw [if_pos h, if_pos h]
    · unfold CreatePost deduplicateCreatePost Cache.GetOrAdd
      by_cases h0 : post.PendingPostId = ""
      · rw [if_pos h0, if_pos h0]
      · rw [if_neg h0, h, if_neg h0]
        rfl
  rw [hbody]
  constructor
  · intro hrr
    exact createPostBody_rootError env _ post channel u _ huser hts hroot
      (fun q h1 h2 h3 =>
        verifyRootParent_rootHasRoot env q pl rootPost
          (h1 ▸ hthread) hlen (h2 ▸ hch) (h1 ▸ hrootPost) hrr)
  · intro hrr hp1 hp2 hmiss
    exact createPostBody_rootError env _ post channel u _ huser hts hroot
      (fun q h1 h2 h3 =>
        verifyRootParent_parentMissing env q pl rootPost
          (h1 ▸ hthread) hlen (h2 ▸ hch) (h1 ▸ hrootPost) hrr
          (h3 ▸ hp1) (by rw [h3, h1]; exact hp2) (h3 ▸ hmiss))

/-- A thread root that itself declares a root (violating the invariant). -/
def threadRootBad : Post :=
  ⟨"root1", "chan1", "user2", "r0", "", "top", "", "", false, false, [], [], 1, 0, 0, ""⟩

/-- A well-formed thread root. -/
def threadRootGood : Post :=
  ⟨"root1", "chan1", "user2", "", "", "top", "", "", false, false, [], [], 1, 0, 0, ""⟩

def threadPLBad : PostList := ⟨["root1"], [("root1", threadRootBad)]⟩

def threadPLGood : PostList := ⟨["root1"], [("root1", threadRootGood)]⟩

def rootedEnvBad : CreateEnv :=
  { sampleCreateEnv with threadGet := fun _ => .ok threadPLBad }

def rootedEnvGood : CreateEnv :=
  { sampleCreateEnv with threadGet := fun _ => .ok threadPLGood }

/-- A reply declaring root `root1` (no parent given). -/
def postWithRoot : Post :=
  ⟨"", "chan1", "user1", "root1", "", "reply", "", "", false, false, [], [], 7, 0, 0, ""⟩

/-- A reply declaring root `root1` and a parent absent from the thread. -/
def postWithParent : Post :=
  ⟨"", "chan1", "user1", "root1", "other", "reply", "", "", false, false, [], [], 7, 0, 0, ""⟩

/-- Witness for C6 at concrete threads. -/
theorem claim_C6_thread_invariant_witness :
    ((CreatePost rootedEnvBad ⟨[], []⟩ postWithRoot sampleChannel).result =
        .error { Where := "createPost", Id := "api.post.create_post.root_id.app_error",
                 StatusCode := statusBadRequest } ∧
      (CreatePost rootedEnvBad ⟨[], []⟩ postWithRoot sampleChannel).writes = 0) ∧
    ((CreatePost rootedEnvGood ⟨[], []⟩ postWithParent sampleChannel).result =
        .error { Where := "createPost", Id := "api.post.create_post.parent_id.app_error",
                 StatusCode := statusInternalServerError } ∧
      (CreatePost rootedEnvGood ⟨[], []⟩ postWithParent sampleChannel).writes = 0) := by
  constructor
  · exact (claim_C6_thread_invariant rootedEnvBad ⟨[], []⟩ postWithRoot sampleChannel
      ⟨"user1", false, false⟩ threadPLBad threadRootBad
      (Or.inl rfl) rfl rfl (by decide) rfl (by decide) (by decide) rfl).1 (by decide)
  · exact (claim_C6_thread_invariant rootedEnvGood ⟨[], []⟩ postWithParent sampleChannel
      ⟨"user1", false, false⟩ threadPLGood threadRootGood
      (Or.inl rfl) rfl rfl (by decide) rfl (by decide) (by decide) rfl).2
      rfl (by decide) (by decide) rfl

/-! ## UpdatePost characterization (no plugins registered) -/

/-- With no plugins registered, `UpdatePost` either aborts before the
store write, or hands exactly the overlay-built new version to
`Store.Post().Update` and returns it. -/
theorem UpdatePost_no_hooks (env : UpdateEnv) (post : Post) (safeUpdate : Bool)
    (pl : PostList) (oldPost : Post)
    (hhooks : env.hooks = [])
    (hpl : env.storeGet post.Id = .ok pl)
    (hold : pl.get? post.Id = some oldPost) :
    (UpdatePost env post safeUpdate).written = none ∨
    UpdatePost env post safeUpdate =
      ⟨.ok (buildNewPost oldPost post.SanitizeProps env.now safeUpdate),
       some (buildNewPost oldPost post.SanitizeProps env.now safeUpdate)⟩ := by
  unfold UpdatePost
  simp only [Post.SanitizeProps_Id, hpl, hold, hhooks, runUpdateHooks, List.foldl]
  repeat' split
  all_goals first
    | exact Or.inl rfl
    | exact Or.inr rfl

/-- With no plugins registered, a performed store write carries the
overlay-built new version, which is also the returned value. -/
theorem UpdatePost_written_eq (env : UpdateEnv) (post : Post) (safeUpdate : Bool)
    (pl : PostList) (oldPost w : Post)
    (hhooks : env.hooks = [])
    (hpl : env.storeGet post.Id = .ok pl)
    (hold : pl.get? post.Id = some oldPost)
    (hw : (UpdatePost env post safeUpdate).written = some w) :
    w = buildNewPost oldPost post.SanitizeProps env.now safeUpdate ∧
      (UpdatePost env post safeUpdate).result = .ok w := by
  rcases UpdatePost_no_hooks env post safeUpdate pl oldPost hhooks hpl hold with h | h
  · rw [h] at hw
    cases hw
  · rw [h] at hw
    simp only [Option.some.injEq] at hw
    exact ⟨hw.symm, by rw [h, hw]⟩

/-! ## C4 -/

/-- With the safe flag, the overlay leaves pin/reaction/file/property
fields at the old post's values. -/
theorem buildNewPost_safe (oldPost post : Post) (now : Int) :
    (buildNewPost oldPost post now true).IsPinned = oldPost.IsPinned ∧
    (buildNewPost oldPost post now true).HasReactions = oldPost.HasReactions ∧
    (buildNewPost oldPost post now true).FileIds = oldPost.FileIds ∧
    (buildNewPost oldPost post now true).Props = oldPost.Props := by
  refine ⟨?_, ?_, ?_, ?_⟩
  · simp [buildNewPost, apply_ite Post.IsPinned]
  · simp [buildNewPost, apply_ite Post.HasReactions]
  · simp [buildNewPost, apply_ite Post.FileIds]
  · simp [buildNewPost, apply_ite Post.Props]

/-- Without the safe flag, the overlay takes pin/reaction/file/property
fields from the caller's post. -/
theorem buildNewPost_unsafe (oldPost post : Post) (now : Int) :
    (buildNewPost oldPost post now false).IsPinned = post.IsPinned ∧
    (buildNewPost oldPost post now false).HasReactions = post.HasReactions ∧
    (buildNewPost oldPost post now false).FileIds = post.FileIds ∧
    (buildNewPost oldPost post now false).Props = post.Props := by
  refine ⟨?_, ?_, ?_, ?_⟩
  · simp [buildNewPost, apply_ite Post.IsPinned]
  · simp [buildNewPost, apply_ite Post.HasReactions]
  · simp [buildNewPost, apply_ite Post.FileIds]
  · simp [buildNewPost, apply_ite Post.Props]

/-- **C4 (amended).** With no plugins registered, an update performed
with the safe flag persists the old post's pinned flag, reactions flag,
file-reference list and property map regardless of the caller's values;
without the flag the caller's pinned/reactions/file values replace the
old ones, and the property map is replaced by the caller's map after
sanitization (server-reserved keys stripped). -/
theorem claim_C4_safe_update (env : UpdateEnv) (post : Post) (safeUpdate : Bool)
    (pl : PostList) (oldPost w : Post)
    (hhooks : env.hooks = [])
    (hpl : env.storeGet post.Id = .ok pl)
    (hold : pl.get? post.Id = some oldPost)
    (hw : (UpdatePost env post safeUpdate).written = some w) :
    (safeUpdate = true →
      w.IsPinned = oldPost.IsPinned ∧ w.HasReactions = oldPost.HasReactions ∧
      w.FileIds = oldPost.FileIds ∧ w.Props = oldPost.Props) ∧
    (safeUpdate = false →
      w.IsPinned = post.IsPinned ∧ w.HasReactions = post.HasReactions ∧
      w.FileIds = post.FileIds ∧ w.Props = (post.SanitizeProps).Props) := by
  obtain ⟨hwe, -⟩ :=
    UpdatePost_written_eq env post safeUpdate pl oldPost w hhooks hpl hold hw
  subst hwe
  constructor
  · rintro rfl
    exact buildNewPost_safe oldPost post.SanitizeProps env.now
  · rintro rfl
    have h := buildNewPost_unsafe oldPost post.SanitizeProps env.now
    simpa using h

/-- A one-post store fixture holding `storedPost` under id `p1`. -/
def updOldStore : PostList := ⟨["p1"], [("p1", storedPost)]⟩

def sampleUpdateEnv : UpdateEnv :=
  { license := false, postEditTimeLimit := -1, now := 1000,
    storeGet := fun _ => .ok updOldStore,
    getChannel := fun _ => .ok sampleChannel,
    propsEnv := trivialPropsEnv, hooks := [], updateErr := none }

/-- A caller update supplying a server-reserved property key. -/
def updPostReserved : Post :=
  ⟨"p1", "chan1", "user1", "", "", "hi", "", "", true, true, ["f1"],
   [("add_channel_member", .str "x")], 3, 0, 0, ""⟩

/-- **C4 counterexample.** Without the safe flag, the persisted property
map is the sanitized caller map, not the caller map verbatim: the
server-reserved key is stripped before the overlay. -/
theorem claim_C4_counterexample :
    ((UpdatePost sampleUpdateEnv updPostReserved false).written.map Post.Props) = some [] ∧
      updPostReserved.Props ≠ [] := by
  exact ⟨rfl, by decide⟩

def wSafeC4 : Post := buildNewPost storedPost updPostReserved.SanitizeProps 1000 true

def wUnsafeC4 : Post := buildNewPost storedPost updPostReserved.SanitizeProps 1000 false

/-- Witness for C4 at a concrete safe and a concrete unsafe update. -/
theorem claim_C4_safe_update_witness :
    (wSafeC4.IsPinned = storedPost.IsPinned ∧ wSafeC4.HasReactions = storedPost.HasReactions ∧
      wSafeC4.FileIds = storedPost.FileIds ∧ wSafeC4.Props = storedPost.Props) ∧
    (wUnsafeC4.IsPinned = updPostReserved.IsPinned ∧
      wUnsafeC4.HasReactions = updPostReserved.HasReactions ∧
      wUnsafeC4.FileIds = updPostReserved.FileIds ∧
      wUnsafeC4.Props = (updPostReserved.SanitizeProps).Props) := by
  constructor
  · exact (claim_C4_safe_update sampleUpdateEnv updPostReserved true updOldStore storedPost
      wSafeC4 rfl rfl rfl (by rfl)).1 rfl
  · exact (claim_C4_safe_update sampleUpdateEnv updPostReserved false updOldStore storedPost
      wUnsafeC4 rfl rfl rfl (by rfl)).2 rfl

/-! ## C3 -/

/-- An update whose message matches `storedPost` (passes every guard). -/
def samePost : Post :=
  ⟨"p1", "chan1", "user1", "", "", "hi", "", "", false, false, [], [], 3, 0, 0, ""⟩

/-- A hook that rejects every update with a reason. -/
def rejectHook : UpdateHook := fun _ _ => (none, "no edits allowed")

def resurrectedPost : Post :=
  ⟨"p1", "chan1", "user1", "", "", "resurrected", "", "", false, false, [], [], 3, 0, 0, ""⟩

/-- A hook that returns a replacement post unconditionally. -/
def resurrectHook : UpdateHook := fun _ _ => (some resurrectedPost, "")

def buggyHooksEnv : UpdateEnv :=
  { sampleUpdateEnv with hooks := [rejectHook, resurrectHook] }

/-- **C3 (code evaluated at the failing input).** With two update hooks
— the first rejecting with a reason, the second returning a replacement
— the rejection is not honored: the chain keeps running (the
`RunMultiPluginHook` callback at post.go line 545 tests `post != nil`,
which is always true, instead of `newPost != nil`), the store update
still happens, and the call succeeds with the second hook's post. -/
theorem claim_C3_hook_rejection_not_honored :
    rejectHook (some (buildNewPost storedPost samePost.SanitizeProps 1000 false)) storedPost =
      (none, "no edits allowed") ∧
    (UpdatePost buggyHooksEnv samePost false).written = some resurrectedPost ∧
    (UpdatePost buggyHooksEnv samePost false).result = .ok resurrectedPost := by
  exact ⟨rfl, rfl, rfl⟩

/-! ## C5 -/

/-- **C5 (amended).** With an enterprise license present, an update that
changes the message text more than N seconds (N ≠ -1) after the post's
creation is rejected with the bad-request time-limit error and no store
write; with the limit disabled (-1) the same update is accepted (in an
otherwise clean environment); and an update that leaves the message
unchanged behaves identically whatever the configured limit — the
window never rejects it. -/
theorem claim_C5_edit_window (env : UpdateEnv) (post : Post) (safe : Bool)
    (pl : PostList) (oldPost : Post)
    (hpl : env.storeGet post.Id = .ok pl)
    (hold : pl.get? post.Id = some oldPost)
    (hdel : oldPost.DeleteAt = 0)
    (hsys : oldPost.IsSystemMessage = false) :
    (env.license = true → env.postEditTimeLimit ≠ -1 →
      env.now > oldPost.CreateAt + env.postEditTimeLimit * 1000 →
      post.Message ≠ oldPost.Message →
      (UpdatePost env post safe).result =
        .error { Where := "UpdatePost",
                 Id := "api.post.update_post.permissions_time_limit.app_error",
                 StatusCode := statusBadRequest } ∧
        (UpdatePost env post safe).written = none) ∧
    (∀ ch q, env.postEditTimeLimit = -1 → env.hooks = [] → env.updateErr = none →
      env.getChannel oldPost.ChannelId = .ok ch → ch.DeleteAt = 0 →
      FillInPostProps env.propsEnv post.SanitizeProps none = .ok q →
      (UpdatePost env post safe).result =
        .ok (buildNewPost oldPost post.SanitizeProps env.now safe)) ∧
    (post.Message = oldPost.Message →
      UpdatePost { env with postEditTimeLimit := -1 } post safe =
        UpdatePost env post safe) := by
  refine ⟨?_, ?_, ?_⟩
  · intro hlic hlim hnow hmsg
    unfold UpdatePost
    simp only [Post.SanitizeProps_Id, hpl, hold]
    rw [if_neg (by simp [hdel]), if_neg (by simp [hsys]),
      if_pos ⟨hlic, hlim, hnow, by simpa using hmsg⟩]
    exact ⟨rfl, rfl⟩
  · intro ch q hlim hhooks hupd hch hchdel hfill
    unfold UpdatePost
    simp only [Post.SanitizeProps_Id, hpl, hold, hch, hfill, hhooks, hupd,
      runUpdateHooks, List.foldl]
    rw [if_neg (by simp [hdel]), if_neg (by simp [hsys]),
      if_neg (by simp [hlim]), if_neg (by simp [hchdel])]
  · intro hmsg
    unfold UpdatePost
    simp only [Post.SanitizeProps_Id, Post.SanitizeProps_Message, hpl, hold, hmsg]
    rw [if_neg (by simp [hdel, hsys]), if_neg (by simp [hdel, hsys]),
      if_neg (by simp [hdel, hsys]), if_neg (by simp [hdel, hsys]),
      if_neg (by simp [hdel, hsys]), if_neg (by simp [hdel, hsys])]

def noLicenseEnv : UpdateEnv :=
  { license := false, postEditTimeLimit := 1, now := 5003,
    storeGet := fun _ => .ok updOldStore,
    getChannel := fun _ => .ok sampleChannel,
    propsEnv := trivialPropsEnv, hooks := [], updateErr := none }

/-- An update changing the message text well past the edit window. -/
def latePost : Post :=
  ⟨"p1", "chan1", "user1", "", "", "edited text", "", "", false, false, [], [], 3, 0, 0, ""⟩

/-- **C5 counterexample.** The claim omits the license condition (post.go
line 499): with no enterprise license, a message-changing update past
the window (limit 1s, five seconds after creation) is accepted, not
rejected. -/
theorem claim_C5_counterexample :
    (UpdatePost noLicenseEnv latePost false).result =
      .ok (buildNewPost storedPost latePost.SanitizeProps 5003 false) ∧
    noLicenseEnv.postEditTimeLimit ≠ -1 ∧
    noLicenseEnv.now > storedPost.CreateAt + noLicenseEnv.postEditTimeLimit * 1000 ∧
    latePost.Message ≠ storedPost.Message := by
  exact ⟨rfl, by decide, by decide, by decide⟩

def licensedEnv : UpdateEnv :=
  { license := true, postEditTimeLimit := 60, now := 70000,
    storeGet := fun _ => .ok updOldStore,
    getChannel := fun _ => .ok sampleChannel,
    propsEnv := trivialPropsEnv, hooks := [], updateErr := none }

def disabledLimitEnv : UpdateEnv := { licensedEnv with postEditTimeLimit := -1 }

/-- Witness for C5: a concrete licensed rejection, a concrete acceptance
with the limit disabled, and a concrete message-unchanged update
insensitive to the limit. -/
theorem claim_C5_edit_window_witness :
    ((UpdatePost licensedEnv latePost false).result =
        .error { Where := "UpdatePost",
                 Id := "api.post.update_post.permissions_time_limit.app_error",
                 StatusCode := statusBadRequest } ∧
      (UpdatePost licensedEnv latePost false).written = none) ∧
    (UpdatePost disabledLimitEnv latePost false).result =
      .ok (buildNewPost storedPost latePost.SanitizeProps 70000 false) ∧
    UpdatePost { licensedEnv with postEditTimeLimit := -1 } samePost false =
      UpdatePost licensedEnv samePost false := by
  refine ⟨?_, ?_, ?_⟩
  · exact (claim_C5_edit_window licensedEnv latePost false updOldStore storedPost
      rfl rfl rfl rfl).1 rfl (by decide) (by decide) (by decide)
  · exact (claim_C5_edit_window disabledLimitEnv latePost false updOldStore storedPost
      rfl rfl rfl rfl).2.1 sampleChannel latePost.SanitizeProps rfl rfl rfl rfl rfl (by rfl)
  · exact (claim_C5_edit_window licensedEnv samePost false updOldStore storedPost
      rfl rfl rfl rfl).2.2 rfl

/-! ## C9 -/

theorem AttachmentsEqual_of_props_eq (old a b : Post) (h : a.Props = b.Props) :
    old.AttachmentsEqual a = old.AttachmentsEqual b := by
  unfold Post.AttachmentsEqual
  rw [h]

/-- The final stage of the overlay (post.go lines 531-534): starting
from a new version whose edit timestamp still equals the old one, the
deep-equality check decides the persisted edit timestamp. -/
theorem editAtStage (oldPost np2 : Post) (now : Int) (w : Post)
    (he : np2.EditAt = oldPost.EditAt)
    (hw : w = if np2.EditAt = oldPost.EditAt ∧
        (¬ fileIdsEquals oldPost.FileIds np2.FileIds ∨ ¬ oldPost.AttachmentsEqual np2)
      then { np2 with EditAt := now } else np2) :
    ((¬ fileIdsEquals oldPost.FileIds w.FileIds ∨ ¬ oldPost.AttachmentsEqual w) →
        w.EditAt = now) ∧
    (fileIdsEquals oldPost.FileIds w.FileIds → oldPost.AttachmentsEqual w →
        w.EditAt = oldPost.EditAt) := by
  have hfw : w.FileIds = np2.FileIds := by
    rw [hw]
    split <;> rfl
  have hpw : w.Props = np2.Props := by
    rw [hw]
    split <;> rfl
  have haw : oldPost.AttachmentsEqual w = oldPost.AttachmentsEqual np2 :=
    AttachmentsEqual_of_props_eq oldPost w np2 hpw
  by_cases hc : (¬ fileIdsEquals oldPost.FileIds np2.FileIds ∨ ¬ oldPost.AttachmentsEqual np2)
  · have hwv : w = { np2 with EditAt := now } := by rw [hw, if_pos ⟨he, hc⟩]
    constructor
    · intro _
      rw [hwv]
    · intro h1 h2
      rw [hfw] at h1
      rw [haw] at h2
      rcases hc with hc | hc
      · exact (hc h1).elim
      · exact (hc h2).elim
  · have hwv : w = np2 := by rw [hw, if_neg (fun hcon => hc hcon.2)]
    constructor
    · intro h1
      rw [hfw, haw] at h1
      exact (hc h1).elim
    · intro _ _
      rw [hwv, he]

/-- With the message unchanged, the overlay's message branch never fires,
so the deep-equality stage decides the edit timestamp: differing file
references or attachments bump it to `now`, otherwise it keeps the old
value. -/
theorem buildNewPost_editAt_of_message_eq (oldPost post : Post) (now : Int) (safe : Bool)
    (hmsg : post.Message = oldPost.Message) :
    ((¬ fileIdsEquals oldPost.FileIds (buildNewPost oldPost post now safe).FileIds ∨
      ¬ oldPost.AttachmentsEqual (buildNewPost oldPost post now safe)) →
        (buildNewPost oldPost post now safe).EditAt = now) ∧
    (fileIdsEquals oldPost.FileIds (buildNewPost oldPost post now safe).FileIds →
      oldPost.AttachmentsEqual (buildNewPost oldPost post now safe) →
        (buildNewPost oldPost post now safe).EditAt = oldPost.EditAt) := by
  unfold buildNewPost
  simp only [hmsg]
  rw [if_neg (show ¬ (oldPost.Message ≠ oldPost.Message) from by simp)]
  cases safe with
  | false =>
    rw [if_pos (show ¬ (false = true) from by simp)]
    exact editAtStage oldPost
      { oldPost with IsPinned := post.IsPinned, HasReactions := post.HasReactions,
                     FileIds := post.FileIds, Props := post.Props } now _ rfl rfl
  | true =>
    rw [if_neg (show ¬ ¬ (true = true) from by simp)]
    exact editAtStage oldPost oldPost now _ rfl rfl

/-- **C9.** With no plugins registered, an update whose message text is
unchanged still gets its edit timestamp set to the current time when the
persisted new version's file-reference list or property-derived
attachments differ structurally from the old post's; when message, file
references and attachments are all unchanged, the edit timestamp keeps
the old value. -/
theorem claim_C9_edit_timestamp (env : UpdateEnv) (post : Post) (safe : Bool)
    (pl : PostList) (oldPost w : Post)
    (hhooks : env.hooks = [])
    (hpl : env.storeGet post.Id = .ok pl)
    (hold : pl.get? post.Id = some oldPost)
    (hw : (UpdatePost env post safe).written = some w)
    (hmsg : post.Message = oldPost.Message) :
    ((¬ fileIdsEquals oldPost.FileIds w.FileIds ∨ ¬ oldPost.AttachmentsEqual w) →
        w.EditAt = env.now) ∧
    (fileIdsEquals oldPost.FileIds w.FileIds → oldPost.AttachmentsEqual w →
        w.EditAt = oldPost.EditAt) := by
  obtain ⟨hwe, -⟩ := UpdatePost_written_eq env post safe pl oldPost w hhooks hpl hold hw
  subst hwe
  exact buildNewPost_editAt_of_message_eq oldPost post.SanitizeProps env.now safe
    (by simpa using hmsg)

/-- A message-preserving update that changes the file references. -/
def filesPost : Post :=
  ⟨"p1", "chan1", "user1", "", "", "hi", "", "", false, false, ["f9"], [], 3, 0, 0, ""⟩

def wFilesC9 : Post := buildNewPost storedPost filesPost.SanitizeProps 1000 false

def wSameC9 : Post := buildNewPost storedPost samePost.SanitizeProps 1000 false

/-- Witness for C9: a concrete metadata-only edit is timestamped, a
concrete no-op edit is not. -/
theorem claim_C9_edit_timestamp_witness :
    ((¬ fileIdsEquals storedPost.FileIds wFilesC9.FileIds ∨
        ¬ storedPost.AttachmentsEqual wFilesC9) ∧ wFilesC9.EditAt = 1000) ∧
    (fileIdsEquals storedPost.FileIds wSameC9.FileIds ∧
      storedPost.AttachmentsEqual wSameC9 ∧ wSameC9.EditAt = storedPost.EditAt) := by
  constructor
  · refine ⟨Or.inl (by decide), ?_⟩
    exact (claim_C9_edit_timestamp sampleUpdateEnv filesPost false updOldStore storedPost
      wFilesC9 rfl rfl rfl (by rfl) rfl).1 (Or.inl (by decide))
  · refine ⟨by decide, by decide, ?_⟩
    exact (claim_C9_edit_timestamp sampleUpdateEnv samePost false updOldStore storedPost
      wSameC9 rfl rfl rfl (by rfl) rfl).2 (by decide) (by decide)

/-! ## C7 -/

instance {ε α : Type} [DecidableEq ε] [DecidableEq α] : DecidableEq (Except ε α) := fun a b =>
  match a, b with
  | .ok x, .ok y =>
    if h : x = y then .isTrue (by rw [h]) else .isFalse (fun hc => by cases hc; exact h rfl)
  | .error x, .error y =>
    if h : x = y then .isTrue (by rw [h]) else .isFalse (fun hc => by cases hc; exact h rfl)
  | .ok _, .error _ => .isFalse (fun hc => by cases hc)
  | .error _, .ok _ => .isFalse (fun hc => by cases hc)

/-- Membership in the union-merge fold: an id is in the merged order iff
it was already there or belongs to one of the folded lists (with a post
recorded for it). -/
theorem foldl_extendStep_mem (other : PostList) (l : List String) (acc : PostList)
    (x : String) :
    x ∈ (l.foldl (PostList.extendStep other) acc).Order ↔
      x ∈ acc.Order ∨ (x ∈ l ∧ (other.get? x).isSome) := by
  induction l generalizing acc with
  | nil => simp
  | cons hd tl ih =>
    rw [List.foldl_cons, ih]
    unfold PostList.extendStep
    by_cases hmem : hd ∈ acc.Order
    · rw [if_pos hmem]
      constructor
      · rintro (h | h)
        · exact Or.inl h
        · exact Or.inr ⟨List.mem_cons_of_mem _ h.1, h.2⟩
      · rintro (h | ⟨hx, hs⟩)
        · exact Or.inl h
        · rcases List.mem_cons.mp hx with rfl | hx
          · exact Or.inl hmem
          · exact Or.inr ⟨hx, hs⟩
    · rw [if_neg hmem]
      cases hg : other.get? hd with
      | some p =>
        simp only [PostList.AddOrder, PostList.AddPost]
        constructor
        · rintro (h | h)
          · rcases List.mem_append.mp h with h | h
            · exact Or.inl h
            · have hx : x = hd := by simpa using h
              subst hx
              exact Or.inr ⟨List.mem_cons_self _ _, by simp [hg]⟩
          · exact Or.inr ⟨List.mem_cons_of_mem _ h.1, h.2⟩
        · rintro (h | ⟨hx, hs⟩)
          · exact Or.inl (List.mem_append.mpr (Or.inl h))
          · rcases List.mem_cons.mp hx with rfl | hx
            · exact Or.inl (List.mem_append.mpr (Or.inr (by simp)))
            · exact Or.inr ⟨hx, hs⟩
      | none =>
        constructor
        · rintro (h | h)
          · exact Or.inl h
          · exact Or.inr ⟨List.mem_cons_of_mem _ h.1, h.2⟩
        · rintro (h | ⟨hx, hs⟩)
          · exact Or.inl h
          · rcases List.mem_cons.mp hx with rfl | hx
            · rw [hg] at hs
              simp at hs
            · exact Or.inr ⟨hx, hs⟩

/-- The union-merge fold never duplicates an order id. -/
theorem foldl_extendStep_nodup (other : PostList) (l : List String) (acc : PostList)
    (h : acc.Order.Nodup) :
    (l.foldl (PostList.extendStep other) acc).Order.Nodup := by
  induction l generalizing acc with
  | nil => simpa
  | cons hd tl ih =>
    rw [List.foldl_cons]
    apply ih
    unfold PostList.extendStep
    by_cases hmem : hd ∈ acc.Order
    · rwa [if_pos hmem]
    · rw [if_neg hmem]
      cases hg : other.get? hd with
      | some p =>
        simp only [PostList.AddOrder, PostList.AddPost]
        simp [List.nodup_append, h, hmem]
      | none => exact h

theorem Extend_mem (a b : PostList) (x : String) :
    x ∈ (a.Extend b).Order ↔ x ∈ a.Order ∨ (x ∈ b.Order ∧ (b.get? x).isSome) :=
  foldl_extendStep_mem b b.Order a x

theorem Extend_nodup (a b : PostList) (h : a.Order.Nodup) : (a.Extend b).Order.Nodup :=
  foldl_extendStep_nodup b b.Order a h

/-- Membership across the whole merge of a list of result lists. -/
theorem foldl_Extend_mem (pls : List PostList) (acc : PostList) (x : String) :
    x ∈ (pls.foldl PostList.Extend acc).Order ↔
      x ∈ acc.Order ∨ ∃ l ∈ pls, x ∈ l.Order ∧ (l.get? x).isSome := by
  induction pls generalizing acc with
  | nil => simp
  | cons hd tl ih =>
    rw [List.foldl_cons, ih, Extend_mem]
    constructor
    · rintro ((h | h) | ⟨l, hl, hx⟩)
      · exact Or.inl h
      · exact Or.inr ⟨hd, List.mem_cons_self _ _, h⟩
      · exact Or.inr ⟨l, List.mem_cons_of_mem _ hl, hx⟩
    · rintro (h | ⟨l, hl, hx⟩)
      · exact Or.inl (Or.inl h)
      · rcases List.mem_cons.mp hl with rfl | hl
        · exact Or.inl (Or.inr hx)
        · exact Or.inr ⟨l, hl, hx⟩

theorem foldl_Extend_nodup (pls : List PostList) (acc : PostList)
    (h : acc.Order.Nodup) : (pls.foldl PostList.Extend acc).Order.Nodup := by
  induction pls generalizing acc with
  | nil => simpa
  | cons hd tl ih =>
    rw [List.foldl_cons]
    exact ih _ (Extend_nodup _ _ h)

instance (pl : PostList) : IsTotal String pl.caGE :=
  ⟨fun a b => le_total (pl.createAtOf b) (pl.createAtOf a)⟩

instance (pl : PostList) : IsTrans String pl.caGE :=
  ⟨fun _ _ _ h1 h2 => le_trans h2 h1⟩

theorem sortByCreateAt_order_perm (pl : PostList) :
    (pl.SortByCreateAt).Order.Perm pl.Order :=
  List.perm_insertionSort _ _

theorem sortByCreateAt_sorted (pl : PostList) :
    List.Sorted pl.caGE (pl.SortByCreateAt).Order :=
  List.sorted_insertionSort _ _

/-- All queries succeeding, the merge loop returns the sorted union. -/
theorem mergeSearchResults_ok (rs : List PostList) (acc : PostList) :
    mergeSearchResults (rs.map Except.ok) acc =
      .ok ((rs.foldl PostList.Extend acc).SortByCreateAt) := by
  induction rs generalizing acc with
  | nil => rfl
  | cons hd tl ih => simpa [mergeSearchResults] using ih (acc.Extend hd)

/-- **C7.** When every per-specification store query succeeds, the
aggregator returns the union of the per-specification result lists with
no duplicate identifiers in the merged order, sorted by creation time
(newest first); specifications whose term is the standalone wildcard
`"*"` are skipped and issue no store query. -/
theorem claim_C7_search_merge (search : SearchParams → Except AppError PostList)
    (paramsList : List SearchParams) (modifierFun : SearchParams → SearchParams)
    (res : SearchParams → PostList)
    (hok : ∀ p ∈ paramsList.filter (fun q => q.Terms ≠ "*"),
        search (modifierFun p) = .ok (res p))
    (hwf : ∀ p ∈ paramsList.filter (fun q => q.Terms ≠ "*"),
        ∀ x ∈ (res p).Order, ((res p).get? x).isSome) :
    (searchPostsInTeam search paramsList modifierFun).2 =
        paramsList.filter (fun q => q.Terms ≠ "*") ∧
    ∃ merged, (searchPostsInTeam search paramsList modifierFun).1 = .ok merged ∧
      merged.Order.Nodup ∧
      (∀ x, x ∈ merged.Order ↔
        ∃ p ∈ paramsList.filter (fun q => q.Terms ≠ "*"), x ∈ (res p).Order) ∧
      List.Sorted merged.caGE merged.Order := by
  refine ⟨rfl, ?_⟩
  have hmap : (paramsList.filter (fun q => q.Terms ≠ "*")).map
        (fun p => search (modifierFun p)) =
      ((paramsList.filter (fun q => q.Terms ≠ "*")).map res).map Except.ok := by
    rw [List.map_map]
    exact List.map_congr_left hok
  have h1 : (searchPostsInTeam search paramsList modifierFun).1 =
      .ok ((((paramsList.filter (fun q => q.Terms ≠ "*")).map res).foldl
        PostList.Extend NewPostList).SortByCreateAt) := by
    unfold searchPostsInTeam
    simp only []
    rw [hmap, mergeSearchResults_ok]
  set pre := ((paramsList.filter (fun q => q.Terms ≠ "*")).map res).foldl
    PostList.Extend NewPostList with hpre
  refine ⟨pre.SortByCreateAt, h1, ?_, ?_, ?_⟩
  · exact ((sortByCreateAt_order_perm pre).nodup_iff).mpr
      (foldl_Extend_nodup _ _ (by simp [NewPostList]))
  · intro x
    rw [(sortByCreateAt_order_perm pre).mem_iff, hpre, foldl_Extend_mem]
    constructor
    · rintro (h | ⟨l, hl, hx, -⟩)
      · simp [NewPostList] at h
      · rcases List.mem_map.mp hl with ⟨p, hp, rfl⟩
        exact ⟨p, hp, hx⟩
    · rintro ⟨p, hp, hx⟩
      exact Or.inr ⟨res p, List.mem_map.mpr ⟨p, hp, rfl⟩, hx, hwf p hp x hx⟩
  · exact sortByCreateAt_sorted pre

def postA : Post := ⟨"A", "chan1", "u1", "", "", "alpha one", "", "", false, false, [], [], 10, 0, 0, ""⟩

def postB : Post := ⟨"B", "chan1", "u1", "", "", "alpha two", "", "", false, false, [], [], 20, 0, 0, ""⟩

def postC : Post := ⟨"C", "chan1", "u1", "", "", "beta", "", "", false, false, [], [], 15, 0, 0, ""⟩

def plAB : PostList := ⟨["A", "B"], [("A", postA), ("B", postB)]⟩

def plC : PostList := ⟨["C"], [("C", postC)]⟩

def spec1 : SearchParams := ⟨"alpha", false, [], [], [], [], false, false⟩

def spec2 : SearchParams := ⟨"beta", false, [], [], [], [], false, false⟩

def specStar : SearchParams := ⟨"*", false, [], [], [], [], false, false⟩

/-- A store query resolving the two sample terms. -/
def sampleSearch : SearchParams → Except AppError PostList := fun p =>
  if p.Terms = "alpha" then .ok plAB
  else if p.Terms = "beta" then .ok plC
  else .error ⟨"SqlPostStore.Search", "store.sql_post.search.app_error", 500⟩

def sampleRes : SearchParams → PostList := fun p =>
  if p.Terms = "alpha" then plAB else plC

/-- Witness for C7 at two concrete disjoint result sets plus a skipped
wildcard specification. -/
theorem claim_C7_search_merge_witness :
    (searchPostsInTeam sampleSearch [spec1, specStar, spec2] id).2 =
        [spec1, specStar, spec2].filter (fun q => q.Terms ≠ "*") ∧
    ∃ merged,
      (searchPostsInTeam sampleSearch [spec1, specStar, spec2] id).1 = .ok merged ∧
      merged.Order.Nodup ∧
      (∀ x, x ∈ merged.Order ↔
        ∃ p ∈ [spec1, specStar, spec2].filter (fun q => q.Terms ≠ "*"),
          x ∈ (sampleRes p).Order) ∧
      List.Sorted merged.caGE merged.Order :=
  claim_C7_search_merge sampleSearch [spec1, specStar, spec2] id sampleRes
    (by decide) (by decide)

/-! ## C8 -/

/-- The merge loop surfaces the first error in arrival order. -/
theorem mergeSearchResults_error (rs : List (Except AppError PostList)) (acc : PostList)
    (h : ∃ r ∈ rs, ∃ e, r = .error e) :
    ∃ e, mergeSearchResults rs acc = .error e ∧ Except.error e ∈ rs := by
  induction rs generalizing acc with
  | nil => simp at h
  | cons hd tl ih =>
    cases hd with
    | error e => exact ⟨e, rfl, List.mem_cons_self _ _⟩
    | ok d =>
      have h' : ∃ r ∈ tl, ∃ e, r = .error e := by
        rcases h with ⟨r, hr, e, he⟩
        rcases List.mem_cons.mp hr with rfl | hr
        · cases he
        · exact ⟨r, hr, e, he⟩
      obtain ⟨e, he, hm⟩ := ih (acc.Extend d) h'
      exact ⟨e, by simpa [mergeSearchResults] using he, List.mem_cons_of_mem _ hm⟩

/-- **C8.** When at least one per-specification store query fails, the
aggregator returns one of the encountered query errors and no post list
(the error constructor carries no merged result — partial results are
not returned). -/
theorem claim_C8_search_error (search : SearchParams → Except AppError PostList)
    (paramsList : List SearchParams) (modifierFun : SearchParams → SearchParams)
    (p0 : SearchParams) (e0 : AppError)
    (hp0 : p0 ∈ paramsList.filter (fun q => q.Terms ≠ "*"))
    (he0 : search (modifierFun p0) = .error e0) :
    ∃ e, (searchPostsInTeam search paramsList modifierFun).1 = .error e ∧
      ∃ p ∈ paramsList.filter (fun q => q.Terms ≠ "*"),
        search (modifierFun p) = .error e := by
  obtain ⟨e, he, hm⟩ := mergeSearchResults_error
    ((paramsList.filter (fun q => q.Terms ≠ "*")).map (fun p => search (modifierFun p)))
    NewPostList
    ⟨search (modifierFun p0), List.mem_map.mpr ⟨p0, hp0, rfl⟩, e0, he0⟩
  refine ⟨e, he, ?_⟩
  rcases List.mem_map.mp hm with ⟨p, hp, hpe⟩
  exact ⟨p, hp, hpe⟩

/-- A store query failing on the second sample term. -/
def sampleSearchFail : SearchParams → Except AppError PostList := fun p =>
  if p.Terms = "alpha" then .ok plAB
  else .error ⟨"SqlPostStore.Search", "store.sql_post.search.app_error", 500⟩

/-- Witness for C8 at a concrete two-term search with one failing term. -/
theorem claim_C8_search_error_witness :
    ∃ e, (searchPostsInTeam sampleSearchFail [spec1, spec2] id).1 = .error e ∧
      ∃ p ∈ [spec1, spec2].filter (fun q => q.Terms ≠ "*"),
        sampleSearchFail (id p) = .error e :=
  claim_C8_search_error sampleSearchFail [spec1, spec2] id spec2
    ⟨"SqlPostStore.Search", "store.sql_post.search.app_error", 500⟩
    (by decide) (by decide)

/-! ## C10 -/

theorem PostList.get?_AddPost (pl : PostList) (p : Post) (id : String) :
    (pl.AddPost p).get? id = if id = p.Id then some p else pl.get? id := by
  unfold PostList.AddPost PostList.get?
  by_cases h : id = p.Id
  · simp [h, List.lookup]
  · rw [if_neg h, lookup_cons_ne _ _ h]
    exact lookup_filter_ne_same _ _ _ h

/-- The filtering loop of `esSearchPostsInTeamForUser` (post.go lines
1029-1034) keeps the invariant that every recorded post — in the map and
along the order — has deletion timestamp 0. -/
theorem esFilter_invariant (posts : List Post) (acc : PostList)
    (h1 : ∀ kv ∈ acc.Posts, kv.2.DeleteAt = 0)
    (h2 : ∀ id ∈ acc.Order, ∃ p, acc.get? id = some p ∧ p.DeleteAt = 0) :
    (∀ kv ∈ (posts.foldl
        (fun pl p => if p.DeleteAt = 0 then (pl.AddPost p).AddOrder p.Id else pl)
        acc).Posts, kv.2.DeleteAt = 0) ∧
    (∀ id ∈ (posts.foldl
        (fun pl p => if p.DeleteAt = 0 then (pl.AddPost p).AddOrder p.Id else pl)
        acc).Order, ∃ p, (posts.foldl
        (fun pl p => if p.DeleteAt = 0 then (pl.AddPost p).AddOrder p.Id else pl)
        acc).get? id = some p ∧ p.DeleteAt = 0) := by
  induction posts generalizing acc with
  | nil => exact ⟨h1, h2⟩
  | cons hd tl ih =>
    rw [List.foldl_cons]
    by_cases hdel : hd.DeleteAt = 0
    · rw [if_pos hdel]
      apply ih
      · intro kv hkv
        simp only [PostList.AddOrder, PostList.AddPost] at hkv
        rcases List.mem_cons.mp hkv with rfl | hkv
        · exact hdel
        · exact h1 kv (List.mem_of_mem_filter hkv)
      · intro id hid
        have hget : ((acc.AddPost hd).AddOrder hd.Id).get? id = (acc.AddPost hd).get? id := rfl
        simp only [PostList.AddOrder] at hid
        rcases List.mem_append.mp hid with hid | hid
        · simp only [PostList.AddPost] at hid
          rcases h2 id hid with ⟨p, hp, hpd⟩
          rw [hget, PostList.get?_AddPost]
          by_cases hi : id = hd.Id
          · exact ⟨hd, by rw [if_pos hi], hdel⟩
          · exact ⟨p, by rw [if_neg hi]; exact hp, hpd⟩
        · have hi : id = hd.Id := by simpa using hid
          subst hi
          exact ⟨hd, by rw [hget, PostList.get?_AddPost, if_pos rfl], hdel⟩
    · rw [if_neg hdel]
      exact ih acc h1 h2

/-- **C10.** Every post returned by the index-backed search has deletion
timestamp 0: soft-deleted ids coming back from the index are filtered
out of both the order and the id→post map before results are returned. -/
theorem claim_C10_es_filters_deleted (env : ESEnv) (paramsList : List SearchParams)
    (isOrSearch : Bool) (page perPage : Nat) (r : PostSearchResults)
    (h : esSearchPostsInTeamForUser env paramsList isOrSearch page perPage = .ok r) :
    (∀ kv ∈ r.postList.Posts, kv.2.DeleteAt = 0) ∧
    (∀ id ∈ r.postList.Order, ∃ p, r.postList.get? id = some p ∧ p.DeleteAt = 0) := by
  unfold esSearchPostsInTeamForUser at h
  simp only [] at h
  split at h
  · cases h
    exact ⟨fun kv hkv => (by cases hkv), fun id hid => (by cases hid)⟩
  · split at h
    · cases h
    · split at h
      · cases h
      · split at h
        · cases h
          exact ⟨fun kv hkv => (by cases hkv), fun id hid => (by cases hid)⟩
        · split at h
          · cases h
          · cases h
            exact esFilter_invariant _ NewPostList
              (fun kv hkv => (by cases hkv)) (fun id hid => (by cases hid))

/-- A soft-deleted post still indexed by Elasticsearch. -/
def deletedPost : Post :=
  ⟨"D", "chan1", "u1", "", "", "gone", "", "", false, false, [], [], 12, 0, 99, ""⟩

def sampleESEnv : ESEnv :=
  { channelByNameIn := fun _ => .error (),
    userByName := fun _ => .error (),
    getChannelsForUser := .ok [sampleChannel],
    esSearch := fun _ _ _ _ => .ok (["A", "D"], []),
    getPostsByIds := fun _ => .ok [postA, deletedPost] }

def esResultC10 : PostSearchResults := ⟨⟨["A"], [("A", postA)]⟩, []⟩

/-- Witness for C10: the index returns a live and a deleted id; only the
live post survives into the result. -/
theorem claim_C10_es_filters_deleted_witness :
    (∀ kv ∈ esResultC10.postList.Posts, kv.2.DeleteAt = 0) ∧
    (∀ id ∈ esResultC10.postList.Order,
      ∃ p, esResultC10.postList.get? id = some p ∧ p.DeleteAt = 0) :=
  claim_C10_es_filters_deleted sampleESEnv [spec1] false 0 20 esResultC10 (by rfl)
